import Mathlib

/-!
Verification development for the SumoSignal expiry and restock alerter.

The definitions below are a shallow embedding of the background manager
(coreBackgroundManager.js) and of the content-script date resolver
(parseExpiryDate). Timestamps are modelled as integers (milliseconds);
collaborator effects (storage writes, notifications) are modelled as an
explicit list of emitted events; fallible collaborators are modelled with
Except. JS truthiness of a string field is modelled as the string being
nonempty.
-/

namespace SumoSignal

/-- A stored deal record. The expiryDate field models the raw string field
through its parse: none means the field is absent or falsy, some none means
present but unparseable (NaN date), some (some t) means it parses to the
timestamp t. -/
structure Deal where
  id : String
  title : String
  url : String
  expiryDate : Option (Option Int)
  dateSaved : String
  status : String
  notes : String
deriving Repr, DecidableEq

/-- A candidate listing returned by the deal-source fetcher. -/
structure Listing where
  title : String
  url : String
deriving Repr, DecidableEq

/-- An observable effect of a reconciliation run or a command handler:
a keyed status write to storage, or a notification. -/
inductive Event where
  | updateStatus (dealId : String) (status : String)
  | expiryWarning (dealId : String)
  | restockAlert (dealId : String) (restockType : String) (candTitle : String) (candUrl : String)
  | saveConfirmation (title : String)
deriving Repr, DecidableEq

/-- The configuration record, mirroring DEFAULT_APP_CONFIG in the source. -/
structure Config where
  expiryCheckPeriodInMinutes : Int
  restockCheckPeriodInMinutes : Int
  restockApiEndpoint : String
  expiryWarningLeadTimeHours : Int
  similarityThreshold : Rat
deriving Repr, DecidableEq

/-- Compiled default configuration (DEFAULT_APP_CONFIG in the source). -/
def DEFAULT_APP_CONFIG : Config :=
  { expiryCheckPeriodInMinutes := 60
    restockCheckPeriodInMinutes := 240
    restockApiEndpoint := "https://api.appsumo.com/v1/deals/active"
    expiryWarningLeadTimeHours := 48
    similarityThreshold := 0.8 }

/-- Persisted user settings: a partial configuration, each field optionally
overriding the corresponding default. -/
structure Settings where
  expiryCheckPeriodInMinutes : Option Int
  restockCheckPeriodInMinutes : Option Int
  restockApiEndpoint : Option String
  expiryWarningLeadTimeHours : Option Int
  similarityThreshold : Option Rat
deriving Repr, DecidableEq

/-- Whether the settings object has no keys (Object.keys length zero in the
source check). -/
def Settings.hasNoKeys (s : Settings) : Bool :=
  s.expiryCheckPeriodInMinutes.isNone && s.restockCheckPeriodInMinutes.isNone &&
  s.restockApiEndpoint.isNone && s.expiryWarningLeadTimeHours.isNone &&
  s.similarityThreshold.isNone

/-- Shallow merge of overrides onto a base configuration, mirroring the JS
object spread of the user settings over DEFAULT_APP_CONFIG. -/
def mergeConfig (base : Config) (s : Settings) : Config :=
  { expiryCheckPeriodInMinutes := s.expiryCheckPeriodInMinutes.getD base.expiryCheckPeriodInMinutes
    restockCheckPeriodInMinutes := s.restockCheckPeriodInMinutes.getD base.restockCheckPeriodInMinutes
    restockApiEndpoint := s.restockApiEndpoint.getD base.restockApiEndpoint
    expiryWarningLeadTimeHours := s.expiryWarningLeadTimeHours.getD base.expiryWarningLeadTimeHours
    similarityThreshold := s.similarityThreshold.getD base.similarityThreshold }

/-- Configuration load (loadAndApplyConfig in the source). The fetched
argument is the outcome of storage.getSettings: an error, an absent or null
result, or a settings object. -/
def loadAndApplyConfig (fetched : Except String (Option Settings)) : Config :=
  match fetched with
  | Except.error _ => DEFAULT_APP_CONFIG
  | Except.ok none => DEFAULT_APP_CONFIG
  | Except.ok (some s) =>
      if s.hasNoKeys then DEFAULT_APP_CONFIG else mergeConfig DEFAULT_APP_CONFIG s

/-- Modelled from the spec: DateTimeHelper.isImminent is referenced by the
expiry check but its code is not under src. The spec says a warning fires
when the difference of the expiry timestamp and the current time is below
the configured lead time. -/
def DateTimeHelper_isImminent (now expiry leadTimeInMs : Int) : Bool :=
  decide (expiry - now < leadTimeInMs)

/-- The body of the per-deal loop of performExpiryChecks: the events emitted
for one watching deal given the current time, the lead time in milliseconds,
and whether DateTimeHelper is available. -/
def expiryStep (now leadTimeInMs : Int) (helperAvailable : Bool) (deal : Deal) : List Event :=
  match deal.expiryDate with
  | none => []
  | some none => []
  | some (some expiry) =>
      if expiry < now then
        [Event.updateStatus deal.id "missed"]
      else if helperAvailable && DateTimeHelper_isImminent now expiry leadTimeInMs then
        [Event.expiryWarning deal.id]
      else if !helperAvailable && decide (expiry - now < leadTimeInMs) then
        [Event.expiryWarning deal.id]
      else
        []

/-- The per-deal loop with the try-catch inside the loop body: every deal of
the batch is given to the step function and its outcome recorded, a failing
record never stopping the rest. -/
def runIsolated (step : Deal → Except String (List Event)) :
    List Deal → List (String × Except String (List Event))
  | [] => []
  | d :: rest => (d.id, step d) :: runIsolated step rest

/-- Events of one recorded outcome: a caught failure contributes none. -/
def okEvents : Except String (List Event) → List Event
  | Except.ok es => es
  | Except.error _ => []

/-- All events of a recorded trace, in order. -/
def eventsOf : List (String × Except String (List Event)) → List Event
  | [] => []
  | p :: rest => okEvents p.2 ++ eventsOf rest

/-- The expiry cycle over a storage snapshot, parameterized by the per-deal
step: fetch the watching deals and process each with per-record isolation. -/
def performExpiryChecksWith (step : Deal → Except String (List Event)) (store : List Deal) :
    List (String × Except String (List Event)) :=
  runIsolated step (store.filter fun d => d.status == "watching")

/-- One run of performExpiryChecks: the events it emits on a storage
snapshot, given the configuration, the current time and whether
DateTimeHelper is available. -/
def performExpiryChecks (cfg : Config) (now : Int) (helperAvailable : Bool)
    (store : List Deal) : List Event :=
  eventsOf (performExpiryChecksWith
    (fun d => Except.ok (expiryStep now (cfg.expiryWarningLeadTimeHours * 3600000) helperAvailable d))
    store)

/-- JS String.prototype.includes on char lists: the needle occurs
contiguously inside the haystack. -/
def containsList (needle : List Char) : List Char → Bool
  | [] => needle.isEmpty
  | c :: rest => needle.isPrefixOf (c :: rest) || containsList needle rest

/-- JS String.prototype.toLowerCase, as the char sequence of the string. -/
def lowerChars (s : String) : List Char :=
  s.toList.map Char.toLower

/-- JS String.prototype.trim on a char sequence: leading and trailing
whitespace removed. -/
def trimChars (l : List Char) : List Char :=
  ((l.dropWhile Char.isWhitespace).reverse.dropWhile Char.isWhitespace).reverse

/-- The basic fallback similarity used by performRestockChecks when the
scorer is unavailable: case-insensitive equality or a case-insensitive
substring relation in either direction. -/
def fallbackIsSimilar (a b : String) : Bool :=
  lowerChars a == lowerChars b ||
  containsList (lowerChars b) (lowerChars a) ||
  containsList (lowerChars a) (lowerChars b)

/-- External collaborators of the restock cycle: the page-activity probe,
the fetched candidate listings, and the optional similarity scorer. -/
structure RestockEnv where
  probe : String → Bool
  listings : List Listing
  scorerAvailable : Bool
  scorer : String → String → Rat → Bool

/-- The similarity decision of the restock check: the scorer at the
configured threshold when available, the basic fallback otherwise. -/
def similarityDecision (env : RestockEnv) (threshold : Rat) (a b : String) : Bool :=
  if env.scorerAvailable then env.scorer a b threshold else fallbackIsSimilar a b

/-- The inner candidate loop of performRestockChecks: scan the fetched
listings in order, skip candidates failing the title and url guards, and on
the first similar candidate emit one similar-listing alert and stop. -/
def scanListings (env : RestockEnv) (threshold : Rat) (deal : Deal) :
    List Listing → List Event
  | [] => []
  | c :: rest =>
      if !(deal.title == "") && !(c.title == "") && !(c.url == "") then
        if similarityDecision env threshold deal.title c.title then
          [Event.restockAlert deal.id "similar_new_listing" c.title c.url]
        else
          scanListings env threshold deal rest
      else
        scanListings env threshold deal rest

/-- The first candidate of the listings passing the guards and the
similarity decision, in scan order. -/
def firstSimilar (env : RestockEnv) (threshold : Rat) (dealTitle : String) :
    List Listing → Option Listing
  | [] => none
  | c :: rest =>
      if !(dealTitle == "") && !(c.title == "") && !(c.url == "") then
        if similarityDecision env threshold dealTitle c.title then some c
        else firstSimilar env threshold dealTitle rest
      else
        firstSimilar env threshold dealTitle rest

/-- The body of the per-deal loop of performRestockChecks for one missed
deal: probe the original url first; when active, alert and move the deal
back to watching, skipping the similarity pass; otherwise scan the fetched
listings. -/
def restockStep (env : RestockEnv) (threshold : Rat) (deal : Deal) : List Event :=
  if !(deal.url == "") && env.probe deal.url then
    [Event.restockAlert deal.id "original_url_active" deal.title deal.url,
     Event.updateStatus deal.id "watching"]
  else
    if env.listings.length > 0 then scanListings env threshold deal env.listings else []

/-- The restock cycle over a storage snapshot, parameterized by the per-deal
step: fetch the missed deals and process each with per-record isolation. -/
def performRestockChecksWith (step : Deal → Except String (List Event)) (store : List Deal) :
    List (String × Except String (List Event)) :=
  runIsolated step (store.filter fun d => d.status == "missed")

/-- One run of performRestockChecks: the events it emits on a storage
snapshot given the configuration and the collaborators. -/
def performRestockChecks (cfg : Config) (env : RestockEnv) (store : List Deal) : List Event :=
  eventsOf (performRestockChecksWith
    (fun d => Except.ok (restockStep env cfg.similarityThreshold d)) store)

/-- Replay of one storage write: a status update is a keyed write applied to
every record with the given id; notifications do not change storage. -/
def applyEvent (store : List Deal) (e : Event) : List Deal :=
  match e with
  | Event.updateStatus dealId s =>
      store.map fun d => if d.id == dealId then { d with status := s } else d
  | _ => store

/-- Replay of the writes of a run, in emission order. -/
def applyEvents (store : List Deal) : List Event → List Deal
  | [] => store
  | e :: rest => applyEvents (applyEvent store e) rest

/-- The saveDeal command handler (handleSaveDeal in the source): validate
the input, then store it with a fresh dateSaved and status watching, the
caller-supplied values of those two fields being overwritten. The returned
deal is the record given to storage.addDeal. -/
def handleSaveDeal (nowIso : String) (dealData : Option Deal) : Except String Deal :=
  match dealData with
  | none => Except.error "Invalid deal data: id, title, and url are required."
  | some dd =>
      if dd.id == "" || dd.title == "" || dd.url == "" then
        Except.error "Invalid deal data: id, title, and url are required."
      else
        Except.ok { dd with dateSaved := nowIso, status := "watching" }

/-- The markAsMissed command handler (handleMarkAsMissed in the source):
validate the id, look the deal up, and write the missed status. -/
def handleMarkAsMissed (store : List Deal) (dealId : String) : Except String (List Event) :=
  if dealId == "" then
    Except.error "Deal ID is required to mark as missed."
  else
    match store.find? (fun d => d.id == dealId) with
    | none => Except.error "Deal not found."
    | some _ => Except.ok [Event.updateStatus dealId "missed"]

/-- Milliseconds in one local calendar day. The date resolver is modelled on
a fixed-offset local clock: instants are milliseconds on the local timeline,
so the local time of day of an instant t is t modulo dayMs. -/
def dayMs : Nat := 86400000

/-- End of the local calendar day containing t, that is 23:59:59.999 local
(the setHours call in the source). -/
def endOfDay (t : Nat) : Nat := t - t % dayMs + (dayMs - 1)

/-- The date resolver (parseExpiryDate in the content script), embedded for
its leading branches: empty input yields null; the input is trimmed and
lowercased; the tonight keyword yields the end of the current day; the
tomorrow keyword yields the end of the next day; every later branch
(relative patterns, absolute dates, the generic fallback) is abstracted by
the restParse argument. -/
def parseExpiryDate (restParse : List Char → Option Nat) (now : Nat) (dateString : String) :
    Option Nat :=
  if dateString == "" then none
  else
    let cleaned := (trimChars dateString.toList).map Char.toLower
    if containsList "tonight".toList cleaned then some (endOfDay now)
    else if containsList "tomorrow".toList cleaned then some (endOfDay now + dayMs)
    else restParse cleaned

/-- The defined status enum of the data model. -/
def statusEnum (s : String) : Prop := s = "watching" ∨ s = "missed"

/-- Every status a storage-writing event carries lies in the enum. -/
def eventStatusOk : Event → Prop
  | Event.updateStatus _ s => statusEnum s
  | _ => True

/-- Recognizer for a restock alert with a given deal id and tag. -/
def isRestockAlertFor (dealId tag : String) : Event → Bool
  | Event.restockAlert i tg _ _ => i == dealId && tg == tag
  | _ => false

/-- The deal id an event is keyed to. -/
def eventDealId : Event → String
  | Event.updateStatus i _ => i
  | Event.expiryWarning i => i
  | Event.restockAlert i _ _ _ => i
  | Event.saveConfirmation _ => ""

/-- Membership in the events of an isolated run with a total step is
membership in the step output of some batch member. -/
theorem mem_eventsOf_ok {f : Deal → List Event} {batch : List Deal} {e : Event} :
    e ∈ eventsOf (runIsolated (fun d => Except.ok (f d)) batch) ↔ ∃ b ∈ batch, e ∈ f b := by
  induction batch with
  | nil => simp [runIsolated, eventsOf]
  | cons b rest ih =>
      simp only [runIsolated, eventsOf, okEvents, List.mem_append, ih, List.mem_cons]
      constructor
      · rintro (h | ⟨b2, hb2, he2⟩)
        · exact ⟨b, Or.inl rfl, h⟩
        · exact ⟨b2, Or.inr hb2, he2⟩
      · rintro ⟨b2, (rfl | hb2), he2⟩
        · exact Or.inl he2
        · exact Or.inr ⟨b2, hb2, he2⟩

/-- Every batch member has its outcome recorded in the isolated run trace. -/
theorem mem_runIsolated {step : Deal → Except String (List Event)} {batch : List Deal}
    {d : Deal} (hd : d ∈ batch) :
    (d.id, step d) ∈ runIsolated step batch := by
  induction batch with
  | nil => cases hd
  | cons b rest ih =>
      rcases List.mem_cons.mp hd with rfl | hd2
      · exact List.mem_cons_self _ _
      · exact List.mem_cons_of_mem _ (ih hd2)

/-- Every event of an ok outcome of the step of a batch member appears in
the events of the isolated run. -/
theorem mem_eventsOf_of_step {step : Deal → Except String (List Event)} {batch : List Deal}
    {d : Deal} {e : Event} (hd : d ∈ batch) (he : e ∈ okEvents (step d)) :
    e ∈ eventsOf (runIsolated step batch) := by
  induction batch with
  | nil => cases hd
  | cons b rest ih =>
      simp only [runIsolated, eventsOf, List.mem_append]
      rcases List.mem_cons.mp hd with rfl | hd2
      · exact Or.inl he
      · exact Or.inr (ih hd2)

/-- The expiry step emits only a missed status write or a warning, both
keyed to the deal processed. -/
theorem expiryStep_cases {now lead : Int} {avail : Bool} {d : Deal} {e : Event}
    (h : e ∈ expiryStep now lead avail d) :
    e = Event.updateStatus d.id "missed" ∨ e = Event.expiryWarning d.id := by
  unfold expiryStep at h
  split at h
  · cases h
  · cases h
  · split at h
    · exact Or.inl (List.mem_singleton.mp h)
    · split at h
      · exact Or.inr (List.mem_singleton.mp h)
      · split at h
        · exact Or.inr (List.mem_singleton.mp h)
        · cases h

/-- The similarity pass emits only similar-listing alerts keyed to the deal
processed. -/
theorem scanListings_cases {env : RestockEnv} {th : Rat} {d : Deal} {ls : List Listing}
    {e : Event} (h : e ∈ scanListings env th d ls) :
    ∃ c : Listing, e = Event.restockAlert d.id "similar_new_listing" c.title c.url := by
  induction ls with
  | nil => cases h
  | cons c rest ih =>
      unfold scanListings at h
      split at h
      · split at h
        · exact ⟨c, List.mem_singleton.mp h⟩
        · exact ih h
      · exact ih h

/-- The restock step emits only an original-url alert, a watching status
write, or a similar-listing alert, all keyed to the deal processed. -/
theorem restockStep_cases {env : RestockEnv} {th : Rat} {d : Deal} {e : Event}
    (h : e ∈ restockStep env th d) :
    e = Event.restockAlert d.id "original_url_active" d.title d.url ∨
    e = Event.updateStatus d.id "watching" ∨
    ∃ c : Listing, e = Event.restockAlert d.id "similar_new_listing" c.title c.url := by
  unfold restockStep at h
  split at h
  · rcases List.mem_cons.mp h with rfl | h2
    · exact Or.inl rfl
    · exact Or.inr (Or.inl (List.mem_singleton.mp h2))
  · split at h
    · exact Or.inr (Or.inr (scanListings_cases h))
    · cases h

/-- Every event of the restock step is keyed to the id of the processed
deal. -/
theorem restockStep_eventDealId {env : RestockEnv} {th : Rat} {d : Deal} {e : Event}
    (h : e ∈ restockStep env th d) : eventDealId e = d.id := by
  rcases restockStep_cases h with rfl | rfl | ⟨c, rfl⟩ <;> rfl

/-- Every event of the expiry step is keyed to the id of the processed
deal. -/
theorem expiryStep_eventDealId {now lead : Int} {avail : Bool} {d : Deal} {e : Event}
    (h : e ∈ expiryStep now lead avail d) : eventDealId e = d.id := by
  rcases expiryStep_cases h with rfl | rfl <;> rfl

/-- Replaying events that never write another status to a given id keeps
every record with that id at the status it already has. -/
theorem applyEvents_keep_status (events : List Event) :
    ∀ (store : List Deal) (dealId s : String),
      (∀ s2, Event.updateStatus dealId s2 ∈ events → s2 = s) →
      (∀ d ∈ store, d.id = dealId → d.status = s) →
      ∀ d ∈ applyEvents store events, d.id = dealId → d.status = s := by
  induction events with
  | nil => intro store dealId s _ hstore d hd hid; exact hstore d hd hid
  | cons e rest ih =>
      intro store dealId s hall hstore d hd hid
      refine ih (applyEvent store e) dealId s
        (fun s2 h2 => hall s2 (List.mem_cons_of_mem _ h2)) ?_ d hd hid
      intro d0 hd0 hid0
      cases e with
      | updateStatus i2 s2 =>
          simp only [applyEvent] at hd0
          obtain ⟨d1, hd1, rfl⟩ := List.mem_map.mp hd0
          by_cases hc : d1.id = i2
          · simp only [hc, beq_self_eq_true, if_true] at hid0 ⊢
            have hi2 : i2 = dealId := by simpa [hc] using hid0
            exact hall s2 (by rw [← hi2]; exact List.mem_cons_self _ _)
          · simp only [beq_eq_false_iff_ne.mpr hc, if_false] at hid0 ⊢
            exact hstore d1 hd1 hid0
      | expiryWarning i => exact hstore d0 hd0 hid0
      | restockAlert i t ct cu => exact hstore d0 hd0 hid0
      | saveConfirmation t => exact hstore d0 hd0 hid0

/-- If a run writes status s to an id and writes no other status to that
id, every record with that id ends at status s after replay. -/
theorem applyEvents_status_eq (events : List Event) :
    ∀ (store : List Deal) (dealId s : String),
      Event.updateStatus dealId s ∈ events →
      (∀ s2, Event.updateStatus dealId s2 ∈ events → s2 = s) →
      ∀ d ∈ applyEvents store events, d.id = dealId → d.status = s := by
  induction events with
  | nil => intro store dealId s h; cases h
  | cons e rest ih =>
      intro store dealId s hmem hall
      rcases List.mem_cons.mp hmem with he | he
      · rw [← he]
        show ∀ d ∈ applyEvents (applyEvent store (Event.updateStatus dealId s)) rest, _
        refine applyEvents_keep_status rest _ dealId s
          (fun s2 h2 => hall s2 (List.mem_cons_of_mem _ h2)) ?_
        intro d0 hd0 hid0
        simp only [applyEvent] at hd0
        obtain ⟨d1, hd1, rfl⟩ := List.mem_map.mp hd0
        by_cases hc : d1.id = dealId
        · simp only [hc, beq_self_eq_true, if_true]
        · simp only [beq_eq_false_iff_ne.mpr hc, if_false] at hid0 ⊢
          exact absurd hid0 hc
      · exact ih (applyEvent store e) dealId s he
          (fun s2 h2 => hall s2 (List.mem_cons_of_mem _ h2))

/-- In a store whose ids are nodup, two members with the same id coincide. -/
theorem nodup_id_unique {store : List Deal} (h : (store.map Deal.id).Nodup) :
    ∀ a ∈ store, ∀ b ∈ store, a.id = b.id → a = b := by
  induction store with
  | nil => intro a ha; cases ha
  | cons x rest ih =>
      intro a ha b hb hab
      rw [List.map_cons, List.nodup_cons] at h
      obtain ⟨hx, hrest⟩ := h
      rcases List.mem_cons.mp ha with rfl | ha2 <;> rcases List.mem_cons.mp hb with rfl | hb2
      · rfl
      · exact absurd (hab ▸ List.mem_map_of_mem Deal.id hb2) hx
      · exact absurd (hab ▸ List.mem_map_of_mem Deal.id ha2) hx
      · exact ih hrest a ha2 b hb2 hab

/-- A filtered batch inherits nodup ids from the store. -/
theorem filter_map_id_nodup {store : List Deal} (h : (store.map Deal.id).Nodup)
    (p : Deal → Bool) : ((store.filter p).map Deal.id).Nodup :=
  List.Nodup.sublist (List.Sublist.map Deal.id (List.filter_sublist store)) h

/-- When every batch member contributes zero events matched by p, the run
events contain zero matches of p. -/
theorem eventsOf_ok_countP_zero {f : Deal → List Event} {p : Event → Bool} {batch : List Deal}
    (h : ∀ b ∈ batch, (f b).countP p = 0) :
    (eventsOf (runIsolated (fun x => Except.ok (f x)) batch)).countP p = 0 := by
  induction batch with
  | nil => rfl
  | cons b rest ih =>
      simp only [runIsolated, eventsOf, okEvents, List.countP_append]
      rw [h b (List.mem_cons_self _ _), ih fun b2 hb2 => h b2 (List.mem_cons_of_mem _ hb2)]

/-- In a nodup batch, when only one member contributes events matched by p,
the match count of the run equals that of this member. -/
theorem countP_eventsOf_ok {f : Deal → List Event} {p : Event → Bool} {batch : List Deal}
    {d : Deal} (hnd : batch.Nodup) (hd : d ∈ batch)
    (hz : ∀ b ∈ batch, b ≠ d → (f b).countP p = 0) :
    (eventsOf (runIsolated (fun x => Except.ok (f x)) batch)).countP p = (f d).countP p := by
  induction batch with
  | nil => cases hd
  | cons b rest ih =>
      rw [List.nodup_cons] at hnd
      obtain ⟨hb, hrest⟩ := hnd
      simp only [runIsolated, eventsOf, okEvents, List.countP_append]
      rcases List.mem_cons.mp hd with rfl | hd2
      · rw [eventsOf_ok_countP_zero
          (fun b2 hb2 => hz b2 (List.mem_cons_of_mem _ hb2) (fun he => hb (he ▸ hb2)))]
        omega
      · rw [hz b (List.mem_cons_self _ _) (fun he => hb (he ▸ hd2)),
          ih hrest hd2 (fun b2 hb2 hne => hz b2 (List.mem_cons_of_mem _ hb2) hne)]
        omega

/-- The similarity pass emits exactly the alert of the first similar
candidate when one exists and nothing otherwise. -/
theorem scanListings_eq (env : RestockEnv) (th : Rat) (d : Deal) (ls : List Listing) :
    scanListings env th d ls =
      match firstSimilar env th d.title ls with
      | some c => [Event.restockAlert d.id "similar_new_listing" c.title c.url]
      | none => [] := by
  induction ls with
  | nil => rfl
  | cons c rest ih =>
      unfold scanListings firstSimilar
      by_cases hg : (!(d.title == "") && !(c.title == "") && !(c.url == "")) = true
      · rw [if_pos hg, if_pos hg]
        by_cases hs : similarityDecision env th d.title c.title = true
        · rw [if_pos hs, if_pos hs]
        · rw [if_neg hs, if_neg hs]; exact ih
      · rw [if_neg hg, if_neg hg]; exact ih

/-- When some candidate of the listings passes the guards and the
similarity decision, the scan finds a first similar candidate. -/
theorem firstSimilar_isSome {env : RestockEnv} {th : Rat} {dt : String} {ls : List Listing}
    {c : Listing} (hc : c ∈ ls) (h1 : ¬c.title = "") (h2 : ¬c.url = "") (ht : ¬dt = "")
    (hs : similarityDecision env th dt c.title = true) :
    ∃ c2, firstSimilar env th dt ls = some c2 := by
  induction ls with
  | nil => cases hc
  | cons c0 rest ih =>
      unfold firstSimilar
      by_cases hg : (!(dt == "") && !(c0.title == "") && !(c0.url == "")) = true
      · rw [if_pos hg]
        by_cases hsim : similarityDecision env th dt c0.title = true
        · rw [if_pos hsim]; exact ⟨c0, rfl⟩
        · rw [if_neg hsim]
          rcases List.mem_cons.mp hc with rfl | hc2
          · exact absurd hs hsim
          · exact ih hc2
      · rw [if_neg hg]
        rcases List.mem_cons.mp hc with rfl | hc2
        · refine absurd ?_ hg
          simp [beq_eq_false_iff_ne.mpr h1, beq_eq_false_iff_ne.mpr h2,
            beq_eq_false_iff_ne.mpr ht]
        · exact ih hc2

/-- The Bool contiguous-occurrence test is complete for the existential
characterization of a substring. -/
theorem containsList_complete {n h : List Char} (hex : ∃ l r, l ++ n ++ r = h) :
    containsList n h = true := by
  induction h with
  | nil =>
      obtain ⟨l, r, he⟩ := hex
      rcases List.append_eq_nil.mp he with ⟨he1, he2⟩
      rcases List.append_eq_nil.mp he1 with ⟨-, hn⟩
      subst hn; rfl
  | cons c rest ih =>
      obtain ⟨l, r, he⟩ := hex
      unfold containsList
      rw [Bool.or_eq_true]
      cases l with
      | nil =>
          left
          exact List.isPrefixOf_iff_prefix.mpr ⟨r, by simpa using he⟩
      | cons x l2 =>
          right
          simp only [List.cons_append, List.cons.injEq] at he
          exact ih ⟨l2, r, he.2⟩

/-- A matching restock alert is keyed to the id it matches. -/
theorem isRestockAlertFor_dealId {dealId tag : String} {e : Event}
    (h : isRestockAlertFor dealId tag e = true) : eventDealId e = dealId := by
  cases e with
  | restockAlert i tg ct cu =>
      simp only [isRestockAlertFor, Bool.and_eq_true, beq_iff_eq] at h
      exact h.1
  | updateStatus i s => cases h
  | expiryWarning i => cases h
  | saveConfirmation t => cases h

/-- Concrete watching deal used as a test fixture. -/
def sampleWatching : Deal :=
  { id := "d1", title := "SuperTool Pro", url := "https://deal.example/one",
    expiryDate := some (some 50), dateSaved := "2024-01-01", status := "watching", notes := "" }

/-- Concrete missed deal used as a test fixture. -/
def sampleMissed : Deal :=
  { id := "d2", title := "SuperTool", url := "https://deal.example/two",
    expiryDate := some (some 10), dateSaved := "2024-01-01", status := "missed", notes := "" }

/-- Restock collaborators with an active original page. -/
def sampleEnvActive : RestockEnv :=
  { probe := fun _ => true, listings := [], scorerAvailable := false,
    scorer := fun _ _ _ => false }

/-- Restock collaborators with a dead original page and one similar
candidate after one guarded-out candidate. -/
def sampleEnvSimilar : RestockEnv :=
  { probe := fun _ => false,
    listings := [{ title := "", url := "https://deal.example/blank" },
                 { title := "SuperTool Pro Max", url := "https://deal.example/new" }],
    scorerAvailable := false, scorer := fun _ _ _ => false }

/-- C1: for every deal record with status watching and a parseable expiry
timestamp strictly earlier than the current time, one run of the Expiry
Reconciler (performExpiryChecks) transitions the status of that deal to
missed. -/
theorem C1_expired_watching_becomes_missed (cfg : Config) (now : Int) (avail : Bool)
    (store : List Deal) (d : Deal) (t : Int)
    (hd : d ∈ store) (hs : d.status = "watching")
    (he : d.expiryDate = some (some t)) (ht : t < now) :
    Event.updateStatus d.id "missed" ∈ performExpiryChecks cfg now avail store ∧
    ∀ d2 ∈ applyEvents store (performExpiryChecks cfg now avail store),
      d2.id = d.id → d2.status = "missed" := by
  have hbatch : d ∈ store.filter fun x => x.status == "watching" :=
    List.mem_filter.mpr ⟨hd, by simp [hs]⟩
  have hstep : expiryStep now (cfg.expiryWarningLeadTimeHours * 3600000) avail d
      = [Event.updateStatus d.id "missed"] := by
    simp [expiryStep, he, ht]
  have hmem : Event.updateStatus d.id "missed" ∈ performExpiryChecks cfg now avail store := by
    unfold performExpiryChecks performExpiryChecksWith
    exact mem_eventsOf_ok.mpr ⟨d, hbatch, by rw [hstep]; exact List.mem_singleton_self _⟩
  refine ⟨hmem, applyEvents_status_eq _ store d.id "missed" hmem ?_⟩
  intro s2 h2
  unfold performExpiryChecks performExpiryChecksWith at h2
  obtain ⟨b, hb, he2⟩ := mem_eventsOf_ok.mp h2
  rcases expiryStep_cases he2 with hcase | hcase
  · injection hcase with hc1 hc2
  · cases hcase

/-- C1 witness: a concrete expired watching deal is written to missed. -/
theorem C1_witness :
    Event.updateStatus "d1" "missed" ∈
      performExpiryChecks DEFAULT_APP_CONFIG 100 true [sampleWatching] :=
  (C1_expired_watching_becomes_missed DEFAULT_APP_CONFIG 100 true [sampleWatching]
    sampleWatching 50 (List.mem_singleton_self _) rfl rfl (by decide)).1

/-- C4: for every deal with status watching whose parseable expiry
timestamp is not in the past but lies within the configured warning lead
time of the current time, one Expiry Reconciler run emits an expiry-warning
notification for that deal and leaves its status unchanged at watching. -/
theorem C4_imminent_expiry_warns (cfg : Config) (now : Int) (avail : Bool)
    (store : List Deal) (d : Deal) (t : Int)
    (hnd : (store.map Deal.id).Nodup)
    (hd : d ∈ store) (hs : d.status = "watching")
    (he : d.expiryDate = some (some t)) (h1 : ¬t < now)
    (h2 : t - now < cfg.expiryWarningLeadTimeHours * 3600000) :
    Event.expiryWarning d.id ∈ performExpiryChecks cfg now avail store ∧
    ∀ d2 ∈ applyEvents store (performExpiryChecks cfg now avail store),
      d2.id = d.id → d2.status = "watching" := by
  have hbatch : d ∈ store.filter fun x => x.status == "watching" :=
    List.mem_filter.mpr ⟨hd, by simp [hs]⟩
  have hstep : expiryStep now (cfg.expiryWarningLeadTimeHours * 3600000) avail d
      = [Event.expiryWarning d.id] := by
    cases avail <;> simp [expiryStep, he, h1, DateTimeHelper_isImminent, h2]
  have hmem : Event.expiryWarning d.id ∈ performExpiryChecks cfg now avail store := by
    unfold performExpiryChecks performExpiryChecksWith
    exact mem_eventsOf_ok.mpr ⟨d, hbatch, by rw [hstep]; exact List.mem_singleton_self _⟩
  refine ⟨hmem, applyEvents_keep_status _ store d.id "watching" ?_ ?_⟩
  · intro s2 h2m
    unfold performExpiryChecks performExpiryChecksWith at h2m
    obtain ⟨b, hb, he2⟩ := mem_eventsOf_ok.mp h2m
    rcases expiryStep_cases he2 with hcase | hcase
    · injection hcase with hc1 hc2
      have hbd : b = d :=
        nodup_id_unique hnd b (List.mem_filter.mp hb).1 d hd hc1.symm
      rw [hbd, hstep] at he2
      rcases List.mem_singleton.mp he2 with h3
      cases h3
    · cases hcase
  · intro d0 hd0 hid0
    have : d0 = d := nodup_id_unique hnd d0 hd0 d hd hid0
    rw [this, hs]

/-- C4 witness: a concrete imminently expiring watching deal receives a
warning. -/
theorem C4_witness :
    Event.expiryWarning "d1" ∈
      performExpiryChecks DEFAULT_APP_CONFIG 40 true [sampleWatching] :=
  (C4_imminent_expiry_warns DEFAULT_APP_CONFIG 40 true [sampleWatching]
    sampleWatching 50 (by simp [sampleWatching]) (List.mem_singleton_self _) rfl rfl
    (by decide) (by decide)).1

/-- C7 counterexample: resolving tomorrow at local midnight yields a
timestamp 47:59:59.999 after the call time, outside the claimed window of
23 to 25 hours after it. -/
theorem C7_counterexample :
    parseExpiryDate (fun _ => none) 0 "tomorrow" = some 172799999 ∧
    ¬(172799999 ≤ 0 + 25 * 3600000) :=
  ⟨by decide, by decide⟩

/-- C7 (amended): resolving tomorrow at local time T yields a non-null
timestamp whose local time of day is 23:59:59.999 and which lies at least
24 hours and less than 48 hours after T. -/
theorem C7_tomorrow_resolution (restParse : List Char → Option Nat) (now : Nat) :
    parseExpiryDate restParse now "tomorrow" = some (endOfDay now + dayMs) ∧
    (endOfDay now + dayMs) % dayMs = dayMs - 1 ∧
    now + 24 * 3600000 ≤ endOfDay now + dayMs ∧
    endOfDay now + dayMs < now + 48 * 3600000 := by
  have h1 : ("tomorrow" == "") = false := by decide
  refine ⟨?_, ?_, ?_, ?_⟩
  · simp only [parseExpiryDate, h1, Bool.false_eq_true, if_false]
    rw [if_neg (by decide), if_pos (by decide)]
  · simp only [endOfDay, dayMs]; omega
  · simp only [endOfDay, dayMs]; omega
  · simp only [endOfDay, dayMs]; omega

/-- C8: the fallback similarity decision used by the restock check accepts
every pair of titles that are equal ignoring case or where one title is a
case-insensitive substring of the other, at every threshold in the unit
interval. -/
theorem C8_fallback_similarity (env : RestockEnv) (threshold : Rat) (a b : String)
    (hav : env.scorerAvailable = false)
    (_ht0 : 0 ≤ threshold) (_ht1 : threshold ≤ 1)
    (h : lowerChars a = lowerChars b ∨
         (∃ l r, l ++ lowerChars a ++ r = lowerChars b) ∨
         (∃ l r, l ++ lowerChars b ++ r = lowerChars a)) :
    similarityDecision env threshold a b = true := by
  simp only [similarityDecision, hav, if_false, Bool.false_eq_true, fallbackIsSimilar,
    Bool.or_eq_true, beq_iff_eq]
  rcases h with h | h | h
  · exact Or.inl (Or.inl h)
  · exact Or.inr (containsList_complete h)
  · exact Or.inl (Or.inr (containsList_complete h))

/-- C8 witness: a concrete case-insensitive substring pair is accepted at
threshold 0.8. -/
theorem C8_witness :
    similarityDecision sampleEnvSimilar 0.8 "SuperTool" "SuperTool Pro Max" = true :=
  C8_fallback_similarity sampleEnvSimilar 0.8 "SuperTool" "SuperTool Pro Max" rfl
    (by norm_num) (by norm_num)
    (Or.inr (Or.inl ⟨[], " pro max".toList, by decide⟩))

/-- C2: for every deal with status missed that has a source URL, when the
page-activity probe of that URL reports active, one Restock Reconciler run
emits exactly one restock notification tagged original_url_active for that
deal, transitions its status back to watching, and does not run the
similar-listing pass for that deal. -/
theorem C2_original_url_active_restock (cfg : Config) (env : RestockEnv)
    (store : List Deal) (d : Deal)
    (hnd : (store.map Deal.id).Nodup)
    (hd : d ∈ store) (hs : d.status = "missed") (hu : d.url ≠ "")
    (hp : env.probe d.url = true) :
    (performRestockChecks cfg env store).countP
        (isRestockAlertFor d.id "original_url_active") = 1 ∧
    (performRestockChecks cfg env store).countP
        (isRestockAlertFor d.id "similar_new_listing") = 0 ∧
    ∀ d2 ∈ applyEvents store (performRestockChecks cfg env store),
      d2.id = d.id → d2.status = "watching" := by
  have hbatch : d ∈ store.filter fun x => x.status == "missed" :=
    List.mem_filter.mpr ⟨hd, by simp [hs]⟩
  have hbnd : (store.filter fun x => x.status == "missed").Nodup :=
    List.Nodup.of_map Deal.id (filter_map_id_nodup hnd _)
  have hstep : restockStep env cfg.similarityThreshold d =
      [Event.restockAlert d.id "original_url_active" d.title d.url,
       Event.updateStatus d.id "watching"] := by
    simp [restockStep, beq_eq_false_iff_ne.mpr hu, hp]
  have hz : ∀ tag : String, ∀ b ∈ store.filter fun x => x.status == "missed", b ≠ d →
      (restockStep env cfg.similarityThreshold b).countP (isRestockAlertFor d.id tag) = 0 := by
    intro tag b hb hne
    refine List.countP_eq_zero.mpr fun e he hpe => hne ?_
    have hbid : b.id = d.id := by
      rw [← restockStep_eventDealId he, isRestockAlertFor_dealId hpe]
    exact nodup_id_unique hnd b (List.mem_filter.mp hb).1 d hd hbid
  refine ⟨?_, ?_, ?_⟩
  · unfold performRestockChecks performRestockChecksWith
    rw [countP_eventsOf_ok hbnd hbatch (hz "original_url_active"), hstep]
    simp [List.countP_cons, isRestockAlertFor]
  · unfold performRestockChecks performRestockChecksWith
    rw [countP_eventsOf_ok hbnd hbatch (hz "similar_new_listing"), hstep]
    simp [List.countP_cons, isRestockAlertFor]
  · have hmem : Event.updateStatus d.id "watching" ∈ performRestockChecks cfg env store := by
      unfold performRestockChecks performRestockChecksWith
      refine mem_eventsOf_ok.mpr ⟨d, hbatch, ?_⟩
      rw [hstep]
      exact List.mem_cons_of_mem _ (List.mem_singleton_self _)
    refine applyEvents_status_eq _ store d.id "watching" hmem ?_
    intro s2 h2
    unfold performRestockChecks performRestockChecksWith at h2
    obtain ⟨b, hb, he2⟩ := mem_eventsOf_ok.mp h2
    rcases restockStep_cases he2 with hcase | hcase | ⟨c, hcase⟩
    · cases hcase
    · injection hcase with hc1 hc2
    · cases hcase

/-- C2 witness: a concrete missed deal with an active original URL yields
one original-url alert and no similar-listing alert. -/
theorem C2_witness :
    (performRestockChecks DEFAULT_APP_CONFIG sampleEnvActive [sampleMissed]).countP
        (isRestockAlertFor "d2" "original_url_active") = 1 ∧
    (performRestockChecks DEFAULT_APP_CONFIG sampleEnvActive [sampleMissed]).countP
        (isRestockAlertFor "d2" "similar_new_listing") = 0 :=
  ⟨(C2_original_url_active_restock DEFAULT_APP_CONFIG sampleEnvActive [sampleMissed]
      sampleMissed (by decide) (List.mem_singleton_self _) rfl (by decide) rfl).1,
   (C2_original_url_active_restock DEFAULT_APP_CONFIG sampleEnvActive [sampleMissed]
      sampleMissed (by decide) (List.mem_singleton_self _) rfl (by decide) rfl).2.1⟩

/-- C3: for every missed deal whose original URL probe is not active, when
some fetched candidate with nonempty title and URL is similar to the deal
title at the configured threshold, one Restock Reconciler run emits exactly
one restock notification tagged similar_new_listing for the first similar
candidate and the status of the deal remains missed. -/
theorem C3_similar_listing_restock (cfg : Config) (env : RestockEnv)
    (store : List Deal) (d : Deal) (c : Listing)
    (hnd : (store.map Deal.id).Nodup)
    (hd : d ∈ store) (hs : d.status = "missed")
    (hprobe : d.url = "" ∨ env.probe d.url = false)
    (htitle : d.title ≠ "")
    (hc : c ∈ env.listings) (hct : c.title ≠ "") (hcu : c.url ≠ "")
    (hsim : similarityDecision env cfg.similarityThreshold d.title c.title = true) :
    (∃ c2 : Listing,
       firstSimilar env cfg.similarityThreshold d.title env.listings = some c2 ∧
       Event.restockAlert d.id "similar_new_listing" c2.title c2.url ∈
         performRestockChecks cfg env store) ∧
    (performRestockChecks cfg env store).countP
        (isRestockAlertFor d.id "similar_new_listing") = 1 ∧
    ∀ d2 ∈ applyEvents store (performRestockChecks cfg env store),
      d2.id = d.id → d2.status = "missed" := by
  obtain ⟨c2, hc2⟩ := firstSimilar_isSome hc hct hcu htitle hsim
  have hbatch : d ∈ store.filter fun x => x.status == "missed" :=
    List.mem_filter.mpr ⟨hd, by simp [hs]⟩
  have hbnd : (store.filter fun x => x.status == "missed").Nodup :=
    List.Nodup.of_map Deal.id (filter_map_id_nodup hnd _)
  have hlen : env.listings.length > 0 :=
    List.length_pos.mpr (List.ne_nil_of_mem hc)
  have hstep : restockStep env cfg.similarityThreshold d =
      [Event.restockAlert d.id "similar_new_listing" c2.title c2.url] := by
    have hcond : (!(d.url == "") && env.probe d.url) = false := by
      rcases hprobe with h | h
      · simp [h]
      · simp [h]
    rw [restockStep, hcond, if_neg (by simp), if_pos hlen, scanListings_eq, hc2]
  have hz : ∀ b ∈ store.filter fun x => x.status == "missed", b ≠ d →
      (restockStep env cfg.similarityThreshold b).countP
        (isRestockAlertFor d.id "similar_new_listing") = 0 := by
    intro b hb hne
    refine List.countP_eq_zero.mpr fun e he hpe => hne ?_
    have hbid : b.id = d.id := by
      rw [← restockStep_eventDealId he, isRestockAlertFor_dealId hpe]
    exact nodup_id_unique hnd b (List.mem_filter.mp hb).1 d hd hbid
  refine ⟨⟨c2, hc2, ?_⟩, ?_, ?_⟩
  · unfold performRestockChecks performRestockChecksWith
    refine mem_eventsOf_ok.mpr ⟨d, hbatch, ?_⟩
    rw [hstep]
    exact List.mem_singleton_self _
  · unfold performRestockChecks performRestockChecksWith
    rw [countP_eventsOf_ok hbnd hbatch hz, hstep]
    simp [List.countP_cons, isRestockAlertFor]
  · refine applyEvents_keep_status _ store d.id "missed" ?_ ?_
    · intro s2 h2
      unfold performRestockChecks performRestockChecksWith at h2
      obtain ⟨b, hb, he2⟩ := mem_eventsOf_ok.mp h2
      rcases restockStep_cases he2 with hcase | hcase | ⟨c3, hcase⟩
      · cases hcase
      · injection hcase with hc1 hc3
        have hbd : b = d :=
          nodup_id_unique hnd b (List.mem_filter.mp hb).1 d hd hc1.symm
        rw [hbd, hstep] at he2
        have := List.mem_singleton.mp he2
        cases this
      · cases hcase
    · intro d0 hd0 hid0
      have : d0 = d := nodup_id_unique hnd d0 hd0 d hd hid0
      rw [this, hs]

/-- C3 witness: a concrete missed deal with a dead URL and a similar
fetched candidate yields exactly one similar-listing alert. -/
theorem C3_witness :
    (performRestockChecks DEFAULT_APP_CONFIG sampleEnvSimilar [sampleMissed]).countP
        (isRestockAlertFor "d2" "similar_new_listing") = 1 :=
  (C3_similar_listing_restock DEFAULT_APP_CONFIG sampleEnvSimilar [sampleMissed]
      sampleMissed ⟨"SuperTool Pro Max", "https://deal.example/new"⟩ (by decide)
      (List.mem_singleton_self _) rfl (Or.inr rfl) (by decide)
      (by decide) (by decide) (by decide) (by decide)).2.1

/-- C5: a failure raised while processing one deal record never prevents
processing of the remaining deals of the fetched batch: in both cycles,
whenever the batch holds a failing record, every batch member still has its
outcome recorded by the same run and every event of a successful member is
still emitted. -/
theorem C5_per_record_isolation (stepE stepR : Deal → Except String (List Event))
    (store : List Deal) :
    ((∃ b ∈ store.filter fun x => x.status == "watching", ∃ m, stepE b = Except.error m) →
      ∀ d ∈ store.filter fun x => x.status == "watching",
        (d.id, stepE d) ∈ performExpiryChecksWith stepE store ∧
        ∀ e ∈ okEvents (stepE d), e ∈ eventsOf (performExpiryChecksWith stepE store)) ∧
    ((∃ b ∈ store.filter fun x => x.status == "missed", ∃ m, stepR b = Except.error m) →
      ∀ d ∈ store.filter fun x => x.status == "missed",
        (d.id, stepR d) ∈ performRestockChecksWith stepR store ∧
        ∀ e ∈ okEvents (stepR d), e ∈ eventsOf (performRestockChecksWith stepR store)) := by
  constructor <;> intro _ d hd <;>
    exact ⟨mem_runIsolated hd, fun e he => mem_eventsOf_of_step hd he⟩

/-- A per-deal step that fails on one specific record, used as a fixture. -/
def sampleFailStep : Deal → Except String (List Event) :=
  fun d => if d.id == "bad" then Except.error "boom" else Except.ok [Event.expiryWarning d.id]

/-- Concrete malformed watching deal whose processing fails. -/
def sampleBad : Deal :=
  { id := "bad", title := "Broken", url := "https://deal.example/bad",
    expiryDate := some none, dateSaved := "2024-01-01", status := "watching", notes := "" }

/-- C5 witness: with a failing record first in the batch, the later valid
record is still evaluated and its outcome recorded. -/
theorem C5_witness :
    ("d1", sampleFailStep sampleWatching) ∈
      performExpiryChecksWith sampleFailStep [sampleBad, sampleWatching] :=
  ((C5_per_record_isolation sampleFailStep sampleFailStep [sampleBad, sampleWatching]).1
    ⟨sampleBad, by decide, "boom", rfl⟩ sampleWatching (by decide)).1

/-- C6: a configuration load yields the compiled defaults unmodified on a
fetch error or an empty or absent result, and on a nonempty settings object
yields the defaults with each present override field winning over the
corresponding default field. -/
theorem C6_config_load (fetched : Except String (Option Settings)) :
    (((∃ m, fetched = Except.error m) ∨ fetched = Except.ok none ∨
        ∃ s, fetched = Except.ok (some s) ∧ s.hasNoKeys = true) →
      loadAndApplyConfig fetched = DEFAULT_APP_CONFIG) ∧
    (∀ s, fetched = Except.ok (some s) → s.hasNoKeys = false →
      loadAndApplyConfig fetched = mergeConfig DEFAULT_APP_CONFIG s ∧
      (∀ v, s.expiryCheckPeriodInMinutes = some v →
        (loadAndApplyConfig fetched).expiryCheckPeriodInMinutes = v) ∧
      (s.expiryCheckPeriodInMinutes = none →
        (loadAndApplyConfig fetched).expiryCheckPeriodInMinutes =
          DEFAULT_APP_CONFIG.expiryCheckPeriodInMinutes) ∧
      (∀ v, s.restockCheckPeriodInMinutes = some v →
        (loadAndApplyConfig fetched).restockCheckPeriodInMinutes = v) ∧
      (s.restockCheckPeriodInMinutes = none →
        (loadAndApplyConfig fetched).restockCheckPeriodInMinutes =
          DEFAULT_APP_CONFIG.restockCheckPeriodInMinutes) ∧
      (∀ v, s.restockApiEndpoint = some v →
        (loadAndApplyConfig fetched).restockApiEndpoint = v) ∧
      (s.restockApiEndpoint = none →
        (loadAndApplyConfig fetched).restockApiEndpoint =
          DEFAULT_APP_CONFIG.restockApiEndpoint) ∧
      (∀ v, s.expiryWarningLeadTimeHours = some v →
        (loadAndApplyConfig fetched).expiryWarningLeadTimeHours = v) ∧
      (s.expiryWarningLeadTimeHours = none →
        (loadAndApplyConfig fetched).expiryWarningLeadTimeHours =
          DEFAULT_APP_CONFIG.expiryWarningLeadTimeHours) ∧
      (∀ v, s.similarityThreshold = some v →
        (loadAndApplyConfig fetched).similarityThreshold = v) ∧
      (s.similarityThreshold = none →
        (loadAndApplyConfig fetched).similarityThreshold =
          DEFAULT_APP_CONFIG.similarityThreshold)) := by
  constructor
  · rintro (⟨m, rfl⟩ | rfl | ⟨s, rfl, hk⟩)
    · rfl
    · rfl
    · simp [loadAndApplyConfig, hk]
  · rintro s rfl hk
    have hload : loadAndApplyConfig (Except.ok (some s)) = mergeConfig DEFAULT_APP_CONFIG s := by
      simp [loadAndApplyConfig, hk]
    rw [hload]
    refine ⟨rfl, ?_, ?_, ?_, ?_, ?_, ?_, ?_, ?_, ?_, ?_⟩ <;>
      first
        | (intro v hv; simp [mergeConfig, hv])
        | (intro hv; simp [mergeConfig, hv])

/-- Concrete one-field settings override used as a test fixture. -/
def sampleSettings : Settings :=
  { expiryCheckPeriodInMinutes := some 30, restockCheckPeriodInMinutes := none,
    restockApiEndpoint := none, expiryWarningLeadTimeHours := none,
    similarityThreshold := none }

/-- C6 witness: a failed fetch falls back to the defaults and a one-field
override wins only on its field. -/
theorem C6_witness :
    loadAndApplyConfig (Except.error "io") = DEFAULT_APP_CONFIG ∧
    (loadAndApplyConfig (Except.ok (some sampleSettings))).expiryCheckPeriodInMinutes = 30 ∧
    (loadAndApplyConfig (Except.ok (some sampleSettings))).restockCheckPeriodInMinutes =
      DEFAULT_APP_CONFIG.restockCheckPeriodInMinutes :=
  ⟨(C6_config_load (Except.error "io")).1 (Or.inl ⟨"io", rfl⟩),
   ((C6_config_load (Except.ok (some sampleSettings))).2 sampleSettings rfl
      (by decide)).2.1 30 rfl,
   ((C6_config_load (Except.ok (some sampleSettings))).2 sampleSettings rfl
      (by decide)).2.2.2.2.1 rfl⟩

/-- C9: every status the core writes to storage lies in the defined enum:
a saved deal is stored watching, markAsMissed writes missed, and every
status write emitted by the expiry and restock cycles is watching or
missed. -/
theorem C9_status_enum_invariant :
    (∀ nowIso dealData stored, handleSaveDeal nowIso dealData = Except.ok stored →
      statusEnum stored.status) ∧
    (∀ store dealId evs, handleMarkAsMissed store dealId = Except.ok evs →
      ∀ e ∈ evs, eventStatusOk e) ∧
    (∀ cfg now avail store, ∀ e ∈ performExpiryChecks cfg now avail store, eventStatusOk e) ∧
    (∀ cfg env store, ∀ e ∈ performRestockChecks cfg env store, eventStatusOk e) := by
  refine ⟨?_, ?_, ?_, ?_⟩
  · intro nowIso dealData stored h
    unfold handleSaveDeal at h
    split at h
    · cases h
    · split at h
      · cases h
      · injection h with h2
        rw [← h2]
        exact Or.inl rfl
  · intro store dealId evs h e he
    unfold handleMarkAsMissed at h
    split at h
    · cases h
    · split at h
      · cases h
      · injection h with h2
        rw [← h2] at he
        rw [List.mem_singleton.mp he]
        exact Or.inr rfl
  · intro cfg now avail store e he
    unfold performExpiryChecks performExpiryChecksWith at he
    obtain ⟨b, hb, he2⟩ := mem_eventsOf_ok.mp he
    rcases expiryStep_cases he2 with rfl | rfl
    · exact Or.inr rfl
    · trivial
  · intro cfg env store e he
    unfold performRestockChecks performRestockChecksWith at he
    obtain ⟨b, hb, he2⟩ := mem_eventsOf_ok.mp he
    rcases restockStep_cases he2 with rfl | rfl | ⟨c, rfl⟩
    · trivial
    · exact Or.inl rfl
    · trivial

/-- C9 witness: concrete writes of each operation carry enum statuses. -/
theorem C9_witness :
    statusEnum ({ sampleMissed with dateSaved := "2024-06-01", status := "watching" } : Deal).status ∧
    eventStatusOk (Event.updateStatus "d2" "missed") ∧
    eventStatusOk (Event.updateStatus "d1" "missed") ∧
    eventStatusOk (Event.updateStatus "d2" "watching") :=
  ⟨C9_status_enum_invariant.1 "2024-06-01" (some sampleMissed) _ rfl,
   C9_status_enum_invariant.2.1 [sampleMissed] "d2" [Event.updateStatus "d2" "missed"] rfl
     _ (List.mem_singleton_self _),
   C9_status_enum_invariant.2.2.1 DEFAULT_APP_CONFIG 100 true [sampleWatching]
     (Event.updateStatus "d1" "missed") (by decide),
   C9_status_enum_invariant.2.2.2 DEFAULT_APP_CONFIG sampleEnvActive [sampleMissed]
     (Event.updateStatus "d2" "watching") (by decide)⟩

/-- C10: handleSaveDeal stores every valid deal with status watching and
the freshly generated dateSaved, overwriting caller-supplied status and
dateSaved values, so a deal can only enter storage watching. -/
theorem C10_save_overrides_status (nowIso : String) (dealData : Deal)
    (hid : dealData.id ≠ "") (hti : dealData.title ≠ "") (hur : dealData.url ≠ "") :
    handleSaveDeal nowIso (some dealData) =
      Except.ok { dealData with dateSaved := nowIso, status := "watching" } ∧
    ∀ input stored, handleSaveDeal nowIso input = Except.ok stored →
      stored.status = "watching" ∧ stored.dateSaved = nowIso := by
  constructor
  · simp [handleSaveDeal, beq_eq_false_iff_ne.mpr hid, beq_eq_false_iff_ne.mpr hti,
      beq_eq_false_iff_ne.mpr hur]
  · intro input stored h
    unfold handleSaveDeal at h
    split at h
    · cases h
    · split at h
      · cases h
      · injection h with h2
        rw [← h2]
        exact ⟨rfl, rfl⟩

/-- C10 witness: a deal supplied with status missed and an old dateSaved is
stored watching with the fresh dateSaved. -/
theorem C10_witness :
    handleSaveDeal "2024-06-01" (some sampleMissed) =
      Except.ok { sampleMissed with dateSaved := "2024-06-01", status := "watching" } :=
  (C10_save_overrides_status "2024-06-01" sampleMissed (by decide) (by decide) (by decide)).1

end SumoSignal
